import Mathlib

/-!
Verification of the model-download and model-lifecycle manager of the
Ranbidge-Assistant repository.  The definitions below are a shallow
embedding of `ModelManager` (filesystem-backed artifact store, catalog,
downloader) and of the Express route handlers that expose it
(`GET /models`, `POST /models/download`, `DELETE /models/:filename`).

Paths are modelled as lists of segments; the filesystem is a finite map
from absolute paths to byte sizes together with flags describing which
fallible operations the environment would refuse (directory unreadable,
unlink blocked).  Remote HTTP behaviour is an oracle from URL strings to
an abstract response.
-/

/-! ## Paths: `path.join` with `..` normalization, as Node performs it -/

def splitCharsAux : List Char → List Char → List (List Char)
  | [], acc => [acc.reverse]
  | c :: rest, acc =>
      if c == '/' then acc.reverse :: splitCharsAux rest []
      else splitCharsAux rest (c :: acc)

def splitSegs (s : String) : List String :=
  ((splitCharsAux s.toList []).map String.mk).filter (fun seg => !(seg == ""))

def normSegs (segs : List String) : List String :=
  segs.foldl
    (fun acc seg =>
      if seg == "." then acc
      else if seg == ".." then acc.dropLast
      else acc ++ [seg]) []

def pathJoin (dir : List String) (filename : String) : List String :=
  normSegs (dir ++ splitSegs filename)

/-- `path.parse(file).name`: the entry name with its last extension removed
(a dot at position 0 does not start an extension, matching Node). -/
def parseName (file : String) : String :=
  let cs := file.toList
  let dots := (List.range cs.length).filter
    (fun i => decide (0 < i) && (cs.getD i ' ' == '.'))
  match dots.getLast? with
  | some i => String.mk (cs.take i)
  | none => file

/-! ## Filesystem state -/

structure FS where
  files : List (List String × Nat)
  dirReadable : Bool
  unlinkBlocked : List (List String)
deriving DecidableEq

def existsSync (fs : FS) (p : List String) : Bool :=
  fs.files.any (fun e => e.1 == p)

def removeFile (fs : FS) (p : List String) : FS :=
  { fs with files := fs.files.filter (fun e => !(e.1 == p)) }

/-- `fs.createWriteStream` / a completed write: (re)creates the file at `p`
with `n` bytes. -/
def setFile (fs : FS) (p : List String) (n : Nat) : FS :=
  { fs with files := (p, n) :: fs.files.filter (fun e => !(e.1 == p)) }

/-- The entry names directly inside `dir`. -/
def dirEntries (fs : FS) (dir : List String) : List String :=
  fs.files.filterMap (fun e =>
    if dir ++ [e.1.getLastD ""] == e.1 then some (e.1.getLastD "") else none)

/-- `fs.readdirSync`: fails when the directory is unreadable. -/
def readdirE (fs : FS) (dir : List String) : Except String (List String) :=
  if fs.dirReadable then Except.ok (dirEntries fs dir) else Except.error "EACCES"

/-- `fs.statSync(...).size`. -/
def statSizeE (fs : FS) (p : List String) : Except String Nat :=
  match fs.files.find? (fun e => e.1 == p) with
  | some e => Except.ok e.2
  | none => Except.error "ENOENT"

/-- `fs.unlinkSync`: fails when the environment blocks removal. -/
def unlinkSyncE (fs : FS) (p : List String) : Except String FS :=
  if p ∈ fs.unlinkBlocked then Except.error "EBUSY" else Except.ok (removeFile fs p)

/-- The asynchronous `fs.unlink(p, () => {})` call: best-effort, the result
is ignored. -/
def bestEffortUnlink (fs : FS) (p : List String) : FS :=
  if p ∈ fs.unlinkBlocked then fs else removeFile fs p

/-! ## Catalog (`RECOMMENDED_MODELS`) -/

structure ModelInfo where
  name : String
  filename : String
  url : String
  size : String
  description : String
deriving DecidableEq

def llamaSmall : ModelInfo :=
  { name := "Llama 3.2 1B Instruct"
    filename := "llama-3.2-1b-instruct-q4_0.gguf"
    url := "https://huggingface.co/bartowski/Llama-3.2-1B-Instruct-GGUF/resolve/main/Llama-3.2-1B-Instruct-Q4_K_M.gguf"
    size := "~670MB"
    description := "Small, fast model good for basic conversations" }

def llamaMedium : ModelInfo :=
  { name := "Llama 3.2 3B Instruct"
    filename := "llama-3.2-3b-instruct-q4_0.gguf"
    url := "https://huggingface.co/bartowski/Llama-3.2-3B-Instruct-GGUF/resolve/main/Llama-3.2-3B-Instruct-Q4_K_M.gguf"
    size := "~1.9GB"
    description := "Balanced model with better reasoning capabilities" }

def phiMini : ModelInfo :=
  { name := "Phi-3 Mini Instruct"
    filename := "phi-3-mini-4k-instruct-q4.gguf"
    url := "https://huggingface.co/bartowski/Phi-3-mini-4k-instruct-GGUF/resolve/main/Phi-3-mini-4k-instruct-Q4_K_M.gguf"
    size := "~2.2MB"
    description := "Microsoft's efficient small language model" }

def RECOMMENDED_MODELS : List ModelInfo := [llamaSmall, llamaMedium, phiMini]

/-! ## ModelManager -/

structure ModelManager where
  modelsDir : List String
deriving DecidableEq

def getModelPath (m : ModelManager) (filename : String) : List String :=
  pathJoin m.modelsDir filename

/-- `${mb.toFixed(1)}MB` where `mb = bytes / (1024*1024)`, rendered with
exact rounding of the tenths digit (round half up). -/
def formatMB (bytes : Nat) : String :=
  let tenths := (bytes * 10 * 2 + 1048576) / (2 * 1048576)
  toString (tenths / 10) ++ "." ++ toString (tenths % 10) ++ "MB"

/-- JavaScript `String.prototype.endsWith`. -/
def strEndsWith (s suffix : String) : Bool :=
  suffix.toList.isSuffixOf s.toList

def getDownloadedModels (m : ModelManager) (fs : FS) : List String :=
  match readdirE fs m.modelsDir with
  | Except.ok entries =>
      (entries.filter (fun file => strEndsWith file ".gguf")).map parseName
  | Except.error _ => []

def getModelSize (m : ModelManager) (fs : FS) (filename : String) : String :=
  if existsSync fs (getModelPath m filename) then
    match statSizeE fs (getModelPath m filename) with
    | Except.ok bytes => formatMB bytes
    | Except.error _ => "Unknown"
  else "Unknown"

def deleteModel (m : ModelManager) (fs : FS) (filename : String) : Bool × FS :=
  if existsSync fs (getModelPath m filename) then
    match unlinkSyncE fs (getModelPath m filename) with
    | Except.ok fs2 => (true, fs2)
    | Except.error _ => (false, fs)
  else (false, fs)

/-! ## Downloader -/

/-- Behaviour of the remote endpoint for one request: either the request
itself errors, or a response arrives with a status code, an optional
`content-length` header, the list of body-chunk sizes actually received,
and—when `interrupted` is set—a transport or local-write error occurring
after those chunks. -/
inductive Net where
  | requestError (msg : String)
  | response (status : Nat) (contentLength : Option Nat) (body : List Nat)
      (interrupted : Option String)

inductive DlResult where
  | ok (path : List String)
  | err (msg : String)
deriving DecidableEq

structure DlOutcome where
  result : DlResult
  fs : FS
  progress : List Nat
  fetched : List String
deriving DecidableEq

/-- `Math.round((downloadedBytes / totalBytes) * 100)` over exact rationals
(round half up, all quantities nonnegative). -/
def jsRound100 (d t : Nat) : Nat := (200 * d + t) / (2 * t)

/-- Cumulative byte counts after each chunk (`downloadedBytes += chunk.length`). -/
def cumsum (acc : Nat) : List Nat → List Nat
  | [] => []
  | c :: rest => (acc + c) :: cumsum (acc + c) rest

/-- Progress percentages emitted on each `data` event: nothing is emitted
unless `totalBytes > 0`. -/
def progressEvents (totalBytes : Nat) (chunks : List Nat) : List Nat :=
  if 0 < totalBytes then (cumsum 0 chunks).map (fun d => jsRound100 d totalBytes)
  else []

def downloadModel (m : ModelManager) (fs : FS) (info : ModelInfo)
    (net : String → Net) : DlOutcome :=
  if existsSync fs (getModelPath m info.filename) then
    ⟨DlResult.ok (getModelPath m info.filename), fs, [], []⟩
  else
    match net info.url with
    | Net.requestError msg =>
        ⟨DlResult.err msg,
         bestEffortUnlink (setFile fs (getModelPath m info.filename) 0)
           (getModelPath m info.filename),
         [], [info.url]⟩
    | Net.response status contentLength body interrupted =>
        if status ≠ 200 then
          ⟨DlResult.err ("Failed to download model: HTTP " ++ toString status),
           setFile fs (getModelPath m info.filename) 0, [], [info.url]⟩
        else
          match interrupted with
          | none =>
              ⟨DlResult.ok (getModelPath m info.filename),
               setFile (setFile fs (getModelPath m info.filename) 0)
                 (getModelPath m info.filename) body.sum,
               progressEvents (contentLength.getD 0) body, [info.url]⟩
          | some msg =>
              ⟨DlResult.err msg,
               bestEffortUnlink
                 (setFile (setFile fs (getModelPath m info.filename) 0)
                   (getModelPath m info.filename) body.sum)
                 (getModelPath m info.filename),
               progressEvents (contentLength.getD 0) body, [info.url]⟩

/-! ## HTTP routes -/

structure ModelsResponse where
  recommended : List ModelInfo
  downloaded : List (String × String)
deriving DecidableEq

/-- `GET /models`. -/
def getModelsRoute (m : ModelManager) (fs : FS) : Except String ModelsResponse :=
  Except.ok
    { recommended := RECOMMENDED_MODELS
      downloaded := (getDownloadedModels m fs).map
        (fun filename => (filename, getModelSize m fs filename)) }

inductive DeleteHttpResult where
  | ok200
  | notFound404
deriving DecidableEq

/-- `DELETE /models/:filename`. -/
def deleteModelRoute (m : ModelManager) (fs : FS) (filename : String) :
    DeleteHttpResult × FS :=
  if (deleteModel m fs filename).1 then
    (DeleteHttpResult.ok200, (deleteModel m fs filename).2)
  else (DeleteHttpResult.notFound404, (deleteModel m fs filename).2)

inductive SseEvent where
  | progress (p : Nat)
  | complete (path : List String)
  | error (msg : String)
deriving DecidableEq

def isTerminal : SseEvent → Bool
  | SseEvent.progress _ => false
  | SseEvent.complete _ => true
  | SseEvent.error _ => true

def terminalEvent : DlResult → SseEvent
  | DlResult.ok p => SseEvent.complete p
  | DlResult.err msg => SseEvent.error msg

structure DlRequest where
  modelUrl : Option String
  filename : Option String
deriving DecidableEq

/-- JavaScript truthiness of an optional string body field. -/
def truthy : Option String → Bool
  | none => false
  | some s => !(s == "")

inductive DlHttpResult where
  | badRequest
  | notFound
  | sse (events : List SseEvent) (closed : Bool)
deriving DecidableEq

structure RouteOutcome where
  http : DlHttpResult
  fs : FS
  fetched : List String
deriving DecidableEq

/-- `POST /models/download`. -/
def postModelsDownload (m : ModelManager) (fs : FS) (req : DlRequest)
    (net : String → Net) : RouteOutcome :=
  if !(truthy req.modelUrl) || !(truthy req.filename) then
    ⟨DlHttpResult.badRequest, fs, []⟩
  else
    match RECOMMENDED_MODELS.find? (fun mi => some mi.filename == req.filename) with
    | none => ⟨DlHttpResult.notFound, fs, []⟩
    | some model =>
        ⟨DlHttpResult.sse
          ((downloadModel m fs model net).progress.map SseEvent.progress ++
            [terminalEvent (downloadModel m fs model net).result]) true,
         (downloadModel m fs model net).fs,
         (downloadModel m fs model net).fetched⟩

/-! ## Concrete fixtures -/

def mgr : ModelManager := { modelsDir := ["srv", "app", "models"] }

def fs0 : FS := { files := [], dirReadable := true, unlinkBlocked := [] }

theorem roundtrip_sanity : getModelPath mgr "m.gguf" = ["srv", "app", "models", "m.gguf"] := by
  decide

/-! ## Helper lemmas -/

theorem any_filter_self (p : List String) (l : List (List String × Nat)) :
    (l.filter (fun e => !(e.1 == p))).any (fun e => e.1 == p) = false := by
  induction l with
  | nil => rfl
  | cons e rest ih =>
    cases he : (e.1 == p) with
    | true => simp [List.filter_cons, he, ih]
    | false => simp [List.filter_cons, he, ih]

theorem existsSync_removeFile (fs : FS) (p : List String) :
    existsSync (removeFile fs p) p = false := by
  exact any_filter_self p fs.files

theorem bestEffort_removes (fs : FS) (p : List String) (h : p ∉ fs.unlinkBlocked) :
    existsSync (bestEffortUnlink fs p) p = false := by
  unfold bestEffortUnlink
  rw [if_neg h]
  exact existsSync_removeFile fs p

theorem cumsum_length (l : List Nat) : ∀ a : Nat, (cumsum a l).length = l.length := by
  induction l with
  | nil => intro a; rfl
  | cons c rest ih => intro a; simp [cumsum, ih (a + c)]

theorem cumsum_last (l : List Nat) :
    ∀ a : Nat, l ≠ [] → (cumsum a l).getLast? = some (a + l.sum) := by
  induction l with
  | nil => intro a h; exact absurd rfl h
  | cons c rest ih =>
    intro a _
    cases rest with
    | nil => simp [cumsum]
    | cons d rest2 =>
      have ih2 := ih (a + c) (by simp)
      simp only [cumsum] at ih2 ⊢
      rw [List.getLast?_cons_cons, ih2]
      simp [List.sum_cons, Nat.add_assoc]

theorem cumsum_chain (l : List Nat) :
    ∀ a : Nat, List.Chain' (fun x y => x ≤ y) (cumsum a l) := by
  induction l with
  | nil => intro a; simp [cumsum]
  | cons c rest ih =>
    intro a
    cases rest with
    | nil => simp [cumsum]
    | cons d rest2 =>
      have ih2 := ih (a + c)
      simp only [cumsum] at ih2 ⊢
      rw [List.chain'_cons]
      exact ⟨Nat.le_add_right _ _, ih2⟩

theorem chain_map_le (f : Nat → Nat) (hf : ∀ a b : Nat, a ≤ b → f a ≤ f b) :
    ∀ l : List Nat, List.Chain' (fun x y => x ≤ y) l →
      List.Chain' (fun x y => x ≤ y) (l.map f) := by
  intro l
  induction l with
  | nil => intro h; simp
  | cons a rest ih =>
    cases rest with
    | nil => intro h; simp
    | cons b rest2 =>
      intro h
      rw [List.chain'_cons] at h
      simp only [List.map]
      rw [List.chain'_cons]
      exact ⟨hf a b h.1, by simpa using ih h.2⟩

theorem map_getLast (f : Nat → Nat) (l : List Nat) :
    (l.map f).getLast? = Option.map f l.getLast? := by
  induction l with
  | nil => rfl
  | cons a rest ih =>
    cases rest with
    | nil => rfl
    | cons b rest2 =>
      simp only [List.map]
      rw [List.getLast?_cons_cons, List.getLast?_cons_cons]
      simpa using ih

theorem jsRound100_mono {d1 d2 : Nat} (t : Nat) (h : d1 ≤ d2) :
    jsRound100 d1 t ≤ jsRound100 d2 t := by
  unfold jsRound100
  exact Nat.div_le_div_right (by omega)

theorem jsRound100_self {t : Nat} (h : 0 < t) : jsRound100 t t = 100 := by
  unfold jsRound100
  have h2 : 200 * t + t = t + 2 * t * 100 := by ring
  rw [h2, Nat.add_mul_div_left _ _ (by omega : 0 < 2 * t),
    Nat.div_eq_of_lt (by omega)]

theorem filter_progress_none (ps : List Nat) :
    (ps.map SseEvent.progress).filter isTerminal = [] := by
  induction ps with
  | nil => rfl
  | cons a rest ih => simp [isTerminal, ih]

theorem mem_map_progress (ps : List Nat) (e : SseEvent)
    (h : e ∈ ps.map SseEvent.progress) : isTerminal e = false := by
  obtain ⟨p, _, rfl⟩ := List.mem_map.mp h
  rfl

theorem isTerminal_terminalEvent (r : DlResult) : isTerminal (terminalEvent r) = true := by
  cases r <;> rfl

theorem downloadModel_fetched (m : ModelManager) (fs : FS) (info : ModelInfo)
    (net : String → Net) :
    (downloadModel m fs info net).fetched = [] ∨
    (downloadModel m fs info net).fetched = [info.url] := by
  unfold downloadModel
  split
  · left; rfl
  · split
    · right; rfl
    · split
      · right; rfl
      · split
        · right; rfl
        · right; rfl

/-! ## Fixtures for concrete evaluations -/

def fsC1 : FS :=
  { files := [(["srv", "app", "models", "m.gguf"], 10),
              (["srv", "app", "models", "notes.txt"], 5)]
    dirReadable := true
    unlinkBlocked := [] }

def net404 : String → Net := fun _ => Net.response 404 none [] none

def net5 : String → Net := fun _ => Net.response 200 (some 4) [1, 1, 2] none

def net6 : String → Net := fun _ => Net.requestError "socket hang up"

def net7 : String → Net := fun _ => Net.response 200 (some 2) [1, 1] none

def fs3 : FS :=
  { files := [(["srv", "app", "models", "llama-3.2-1b-instruct-q4_0.gguf"], 5)]
    dirReadable := true
    unlinkBlocked := [] }

/-! ## Claim theorems -/

/-- Claim C1 (failing input): with `models/m.gguf` of 10 bytes and a stray
`models/notes.txt` on disk, `getDownloadedModels` does filter to the
`.gguf` extension but lists the entry as `"m"` — the on-disk entry name
with its extension stripped by `path.parse(file).name` — not as
`"m.gguf"`; consequently the size lookup for the listed name finds no
file and yields `"Unknown"` (while the real file would have had a
byte-derived label), and the aggregated listing pairs `"m"` with
`"Unknown"`. -/
theorem listing_strips_extension :
    getDownloadedModels mgr fsC1 = ["m"] ∧
    getModelSize mgr fsC1 "m" = "Unknown" ∧
    getModelSize mgr fsC1 "m.gguf" = "0.0MB" ∧
    getModelsRoute mgr fsC1 =
      Except.ok { recommended := RECOMMENDED_MODELS,
                  downloaded := [("m", "Unknown")] } := by
  refine ⟨by decide, by decide, by decide, ?_⟩
  rfl

/-- Claim C2 (failing input): when the remote endpoint answers 404 for the
first catalog entry, `downloadModel` rejects with an error carrying the
status code, but the destination file created by `createWriteStream` is
NOT removed: after the rejection an (empty) file for that fileName still
exists in the artifact directory. -/
theorem non200_leaves_file :
    (downloadModel mgr fs0 llamaSmall net404).result =
      DlResult.err "Failed to download model: HTTP 404" ∧
    existsSync (downloadModel mgr fs0 llamaSmall net404).fs
      (getModelPath mgr llamaSmall.filename) = true ∧
    (downloadModel mgr fs0 llamaSmall net404).fetched = [llamaSmall.url] := by
  refine ⟨?_, by decide, by decide⟩
  rfl

/-- Claim C3: if the catalog entry's fileName already exists in the
artifact store, `downloadModel` returns the existing path immediately,
leaves the filesystem untouched, performs no network request, and a
second call returns exactly the same outcome. -/
theorem download_idempotent (m : ModelManager) (fs : FS) (info : ModelInfo)
    (net : String → Net)
    (h : existsSync fs (getModelPath m info.filename) = true) :
    downloadModel m fs info net =
      ⟨DlResult.ok (getModelPath m info.filename), fs, [], []⟩ ∧
    downloadModel m (downloadModel m fs info net).fs info net =
      downloadModel m fs info net := by
  have h1 : downloadModel m fs info net =
      ⟨DlResult.ok (getModelPath m info.filename), fs, [], []⟩ := by
    unfold downloadModel
    rw [h]
    simp
  exact ⟨h1, by rw [h1]; exact h1⟩

/-- Claim C3 witness: concrete store already holding the artifact. -/
theorem download_idempotent_witness :
    downloadModel mgr fs3 llamaSmall net5 =
      ⟨DlResult.ok (getModelPath mgr llamaSmall.filename), fs3, [], []⟩ ∧
    downloadModel mgr (downloadModel mgr fs3 llamaSmall net5).fs llamaSmall net5 =
      downloadModel mgr fs3 llamaSmall net5 :=
  download_idempotent mgr fs3 llamaSmall net5 (by decide)

def fsLocked : FS :=
  { files := [(["srv", "app", "models", "locked.gguf"], 3)]
    dirReadable := true
    unlinkBlocked := [["srv", "app", "models", "locked.gguf"]] }

/-- Claim C4 counterexample: `models/locked.gguf` exists and the
filesystem blocks its removal (`unlinkSyncE` fails with EBUSY), yet
`deleteModel` does not fail with an IOError — the catch swallows the
error and it returns `false`, leaving the file in place, and the facade
reports 404. -/
theorem delete_blocked_returns_false :
    existsSync fsLocked (getModelPath mgr "locked.gguf") = true ∧
    unlinkSyncE fsLocked (getModelPath mgr "locked.gguf") = Except.error "EBUSY" ∧
    deleteModel mgr fsLocked "locked.gguf" = (false, fsLocked) ∧
    (deleteModelRoute mgr fsLocked "locked.gguf").1 = DeleteHttpResult.notFound404 := by
  refine ⟨by decide, by rfl, by decide, by decide⟩

/-- Claim C4 (amended): `deleteModel` returns `false` when the file does
not exist, `true` on successful removal, and `false` (the caught error is
not re-raised) when removal of an existing file is blocked; the facade
answers 200 exactly when `deleteModel` returned `true` and 404 otherwise,
so a nonexistent fileName is surfaced as 404 and never as an unhandled
error. -/
theorem deleteModel_contract (m : ModelManager) (fs : FS) (filename : String) :
    (existsSync fs (getModelPath m filename) = false →
      deleteModel m fs filename = (false, fs)) ∧
    (existsSync fs (getModelPath m filename) = true →
      getModelPath m filename ∉ fs.unlinkBlocked →
      deleteModel m fs filename = (true, removeFile fs (getModelPath m filename)) ∧
      existsSync (removeFile fs (getModelPath m filename))
        (getModelPath m filename) = false) ∧
    (existsSync fs (getModelPath m filename) = true →
      getModelPath m filename ∈ fs.unlinkBlocked →
      deleteModel m fs filename = (false, fs)) ∧
    ((deleteModelRoute m fs filename).1 = DeleteHttpResult.ok200 ↔
      (deleteModel m fs filename).1 = true) ∧
    (deleteModelRoute m fs filename).2 = (deleteModel m fs filename).2 := by
  refine ⟨?_, ?_, ?_, ?_, ?_⟩
  · intro h
    unfold deleteModel
    rw [h]
    simp
  · intro h hnb
    refine ⟨?_, existsSync_removeFile fs (getModelPath m filename)⟩
    unfold deleteModel unlinkSyncE
    rw [h, if_neg hnb]
    simp
  · intro h hb
    unfold deleteModel unlinkSyncE
    rw [h, if_pos hb]
    simp
  · cases hb : (deleteModel m fs filename).1 <;>
      simp [deleteModelRoute, hb]
  · cases hb : (deleteModel m fs filename).1 <;>
      simp [deleteModelRoute, hb]

/-- Claim C4 witness: successful removal of an existing, unblocked file. -/
theorem deleteModel_contract_witness :
    deleteModel mgr fs3 "llama-3.2-1b-instruct-q4_0.gguf" =
      (true, removeFile fs3 (getModelPath mgr "llama-3.2-1b-instruct-q4_0.gguf")) ∧
    existsSync (removeFile fs3 (getModelPath mgr "llama-3.2-1b-instruct-q4_0.gguf"))
      (getModelPath mgr "llama-3.2-1b-instruct-q4_0.gguf") = false :=
  (deleteModel_contract mgr fs3 "llama-3.2-1b-instruct-q4_0.gguf").2.1
    (by decide) (by decide)

/-- Claim C5: during a single download that streams to completion, if the
response declares a positive content length then one progress value is
emitted per received chunk, the values are non-decreasing, and the final
value is 100 when the body length equals the declared length; if no
content length is declared, no progress value is ever emitted. -/
theorem progress_contract (m : ModelManager) (fs : FS) (info : ModelInfo)
    (net : String → Net)
    (h0 : existsSync fs (getModelPath m info.filename) = false) :
    (∀ t body, net info.url = Net.response 200 (some t) body none → 0 < t →
      body.sum = t →
      ((downloadModel m fs info net).progress =
         (cumsum 0 body).map (fun d => jsRound100 d t) ∧
       (downloadModel m fs info net).progress.length = body.length ∧
       List.Chain' (fun a b => a ≤ b) (downloadModel m fs info net).progress ∧
       (downloadModel m fs info net).progress.getLast? = some 100)) ∧
    (∀ body itr, net info.url = Net.response 200 none body itr →
      (downloadModel m fs info net).progress = []) := by
  constructor
  · intro t body hnet ht hsum
    have hd : (downloadModel m fs info net).progress =
        (cumsum 0 body).map (fun d => jsRound100 d t) := by
      unfold downloadModel
      rw [hnet, h0]
      simp [progressEvents, ht]
    refine ⟨hd, ?_, ?_, ?_⟩
    · rw [hd]
      simp [cumsum_length]
    · rw [hd]
      exact chain_map_le _ (fun a b hab => jsRound100_mono t hab) _ (cumsum_chain body 0)
    · have hne : body ≠ [] := by
        intro hb
        rw [hb] at hsum
        simp at hsum
        omega
      rw [hd, map_getLast, cumsum_last body 0 hne]
      simp [hsum, jsRound100_self ht]
  · intro body itr hnet
    unfold downloadModel
    rw [hnet, h0]
    cases itr <;> simp [progressEvents]

/-- Claim C5 witness: a 4-byte download received as chunks of 1, 1 and 2
bytes emits three non-decreasing percentages ending in 100. -/
theorem progress_contract_witness :
    (downloadModel mgr fs0 llamaSmall net5).progress =
      (cumsum 0 [1, 1, 2]).map (fun d => jsRound100 d 4) ∧
    (downloadModel mgr fs0 llamaSmall net5).progress.length = ([1, 1, 2] : List Nat).length ∧
    List.Chain' (fun a b => a ≤ b) (downloadModel mgr fs0 llamaSmall net5).progress ∧
    (downloadModel mgr fs0 llamaSmall net5).progress.getLast? = some 100 :=
  (progress_contract mgr fs0 llamaSmall net5 (by decide)).1 4 [1, 1, 2]
    rfl (by decide) (by decide)

/-- Claim C6: a download interrupted by a transport-level error (the
request errors) or by a mid-stream transport or write error rejects with
that error, and — removal being unblocked, the best-effort case — the
partial destination file is removed, so no file remains at the target
path. -/
theorem failure_cleanup (m : ModelManager) (fs : FS) (info : ModelInfo)
    (net : String → Net) (msg : String)
    (h0 : existsSync fs (getModelPath m info.filename) = false)
    (hnb : getModelPath m info.filename ∉ fs.unlinkBlocked)
    (h : net info.url = Net.requestError msg ∨
         ∃ cl body, net info.url = Net.response 200 cl body (some msg)) :
    (downloadModel m fs info net).result = DlResult.err msg ∧
    existsSync (downloadModel m fs info net).fs (getModelPath m info.filename) = false := by
  rcases h with hnet | ⟨cl, body, hnet⟩
  · have hd : downloadModel m fs info net =
        ⟨DlResult.err msg,
         bestEffortUnlink (setFile fs (getModelPath m info.filename) 0)
           (getModelPath m info.filename), [], [info.url]⟩ := by
      unfold downloadModel
      rw [hnet, h0]
      simp
    rw [hd]
    exact ⟨rfl, bestEffort_removes _ _ hnb⟩
  · have hd : downloadModel m fs info net =
        ⟨DlResult.err msg,
         bestEffortUnlink
           (setFile (setFile fs (getModelPath m info.filename) 0)
             (getModelPath m info.filename) body.sum)
           (getModelPath m info.filename),
         progressEvents (cl.getD 0) body, [info.url]⟩ := by
      unfold downloadModel
      rw [hnet, h0]
      simp
    rw [hd]
    exact ⟨rfl, bestEffort_removes _ _ hnb⟩

/-- Claim C6 witness: a request-level transport error on an empty store
rejects and leaves no file at the target path. -/
theorem failure_cleanup_witness :
    (downloadModel mgr fs0 llamaSmall net6).result = DlResult.err "socket hang up" ∧
    existsSync (downloadModel mgr fs0 llamaSmall net6).fs
      (getModelPath mgr llamaSmall.filename) = false :=
  failure_cleanup mgr fs0 llamaSmall net6 "socket hang up"
    (by decide) (by decide) (Or.inl rfl)

/-- Claim C7: whenever `POST /models/download` reaches the streaming
phase, the emitted event stream is zero or more progress events followed
by exactly one terminal event (a completion or an error, never both),
and the channel is closed right after it. -/
theorem sse_terminal_unique (m : ModelManager) (fs : FS) (req : DlRequest)
    (net : String → Net) (events : List SseEvent) (closed : Bool)
    (h : (postModelsDownload m fs req net).http = DlHttpResult.sse events closed) :
    closed = true ∧
    (∃ t, events.getLast? = some t ∧ isTerminal t = true) ∧
    (∀ e ∈ events.dropLast, isTerminal e = false) ∧
    (events.filter isTerminal).length = 1 := by
  unfold postModelsDownload at h
  split at h
  · simp at h
  · split at h
    · simp at h
    · simp only [DlHttpResult.sse.injEq] at h
      obtain ⟨he, hc⟩ := h
      subst he
      refine ⟨hc.symm, ?_, ?_, ?_⟩
      · exact ⟨_, List.getLast?_concat _, isTerminal_terminalEvent _⟩
      · intro e hm
        rw [List.dropLast_concat] at hm
        exact mem_map_progress _ _ hm
      · rw [List.filter_append, filter_progress_none]
        simp [isTerminal_terminalEvent]

def reqOk : DlRequest :=
  { modelUrl := some "http://client-supplied.example/ignored"
    filename := some "llama-3.2-1b-instruct-q4_0.gguf" }

/-- Claim C7 witness: a 2-byte download streamed as two 1-byte chunks
yields progress 50 and 100 followed by the single completion event. -/
theorem sse_terminal_unique_witness :
    (true : Bool) = true ∧
    (∃ t, ([SseEvent.progress 50, SseEvent.progress 100,
            SseEvent.complete ["srv", "app", "models", "llama-3.2-1b-instruct-q4_0.gguf"]]
           : List SseEvent).getLast? = some t ∧ isTerminal t = true) ∧
    (∀ e ∈ ([SseEvent.progress 50, SseEvent.progress 100,
            SseEvent.complete ["srv", "app", "models", "llama-3.2-1b-instruct-q4_0.gguf"]]
           : List SseEvent).dropLast, isTerminal e = false) ∧
    (([SseEvent.progress 50, SseEvent.progress 100,
            SseEvent.complete ["srv", "app", "models", "llama-3.2-1b-instruct-q4_0.gguf"]]
           : List SseEvent).filter isTerminal).length = 1 :=
  sse_terminal_unique mgr fs0 reqOk net7
    [SseEvent.progress 50, SseEvent.progress 100,
      SseEvent.complete ["srv", "app", "models", "llama-3.2-1b-instruct-q4_0.gguf"]]
    true (by decide)

def fsUnreadable : FS :=
  { files := [(["srv", "app", "models", "m.gguf"], 10)]
    dirReadable := false
    unlinkBlocked := [] }

/-- Claim C8: `getDownloadedModels` swallows a directory-read failure and
returns the empty listing, and the `GET /models` aggregation therefore
succeeds for every filesystem state. -/
theorem getModels_never_fails (m : ModelManager) (fs : FS) :
    (getModelsRoute m fs).isOk = true ∧
    (∀ e, readdirE fs m.modelsDir = Except.error e → getDownloadedModels m fs = []) := by
  refine ⟨rfl, ?_⟩
  intro e he
  unfold getDownloadedModels
  rw [he]

/-- Claim C8 witness: an unreadable artifact directory still yields a
successful, empty listing. -/
theorem getModels_never_fails_witness :
    (getModelsRoute mgr fsUnreadable).isOk = true ∧
    getDownloadedModels mgr fsUnreadable = [] :=
  ⟨(getModels_never_fails mgr fsUnreadable).1,
   (getModels_never_fails mgr fsUnreadable).2 "EACCES" rfl⟩

def reqEmptyUrl : DlRequest :=
  { modelUrl := some ""
    filename := some "llama-3.2-1b-instruct-q4_0.gguf" }

def reqEvilUrl : DlRequest :=
  { modelUrl := some "http://evil.example/payload.gguf"
    filename := some "llama-3.2-1b-instruct-q4_0.gguf" }

/-- Claim C9 counterexample: two requests carrying the same catalog
filename but differing only in `modelUrl` (empty string versus a
non-empty URL) are NOT treated identically — the falsy `modelUrl` is
rejected with 400 before the catalog lookup, while the truthy one starts
the stream; the URL actually fetched for the latter is nonetheless the
catalog entry's URL, not the client-supplied one. -/
theorem modelUrl_behaviour_differs :
    (postModelsDownload mgr fs0 reqEmptyUrl net5).http = DlHttpResult.badRequest ∧
    (postModelsDownload mgr fs0 reqEvilUrl net5).fetched = [llamaSmall.url] ∧
    postModelsDownload mgr fs0 reqEmptyUrl net5 ≠ postModelsDownload mgr fs0 reqEvilUrl net5 := by
  refine ⟨by decide, by decide, by decide⟩

/-- Claim C9 (amended): for every pair of `POST /models/download`
requests with truthy `modelUrl` fields that carry the same filename, the
server's behaviour is identical, and every URL it fetches is the URL of
the catalog entry matched by the filename — the client-supplied
`modelUrl` is never used to fetch bytes.  (Requests whose `modelUrl` is
absent or empty are instead rejected with 400 before any lookup, so the
two-run property as originally stated fails for them.) -/
theorem modelUrl_noninterference (m : ModelManager) (fs : FS)
    (net : String → Net) (req1 req2 : DlRequest)
    (h1 : truthy req1.modelUrl = true) (h2 : truthy req2.modelUrl = true)
    (hf : req1.filename = req2.filename) :
    postModelsDownload m fs req1 net = postModelsDownload m fs req2 net ∧
    (∀ u ∈ (postModelsDownload m fs req1 net).fetched,
      ∃ mi, mi ∈ RECOMMENDED_MODELS ∧ req1.filename = some mi.filename ∧ u = mi.url) := by
  have hmain : postModelsDownload m fs req1 net = postModelsDownload m fs req2 net := by
    unfold postModelsDownload
    rw [h1, h2, hf]
  refine ⟨hmain, ?_⟩
  intro u hu
  unfold postModelsDownload at hu
  by_cases hc : (!(truthy req1.modelUrl) || !(truthy req1.filename)) = true
  · rw [if_pos hc] at hu
    simp at hu
  · rw [if_neg hc] at hu
    cases hfind : RECOMMENDED_MODELS.find? (fun mi => some mi.filename == req1.filename) with
    | none =>
      rw [hfind] at hu
      simp at hu
    | some model =>
      rw [hfind] at hu
      simp only at hu
      have hmem : model ∈ RECOMMENDED_MODELS := List.mem_of_find?_eq_some hfind
      have hpred := List.find?_some hfind
      simp only [beq_iff_eq] at hpred
      have hfn : req1.filename = some model.filename := hpred.symm
      rcases downloadModel_fetched m fs model net with he | he
      · rw [he] at hu
        simp at hu
      · rw [he] at hu
        simp at hu
        exact ⟨model, hmem, hfn, hu⟩

def reqUrlA : DlRequest :=
  { modelUrl := some "http://mirror-a.example/a.gguf"
    filename := some "llama-3.2-1b-instruct-q4_0.gguf" }

def reqUrlB : DlRequest :=
  { modelUrl := some "http://mirror-b.example/b.gguf"
    filename := some "llama-3.2-1b-instruct-q4_0.gguf" }

/-- Claim C9 witness: two truthy `modelUrl` values with the same filename
give identical route outcomes. -/
theorem modelUrl_noninterference_witness :
    postModelsDownload mgr fs0 reqUrlA net5 = postModelsDownload mgr fs0 reqUrlB net5 :=
  (modelUrl_noninterference mgr fs0 net5 reqUrlA reqUrlB (by decide) (by decide) rfl).1

def isUnder (dir p : List String) : Bool := p.take dir.length == dir

def fsOutside : FS :=
  { files := [(["srv", "app", "x"], 7)]
    dirReadable := true
    unlinkBlocked := [] }

/-- Claim C10: `getModelPath` is the plain (normalizing) join of the
models directory with its argument, with no validation; the traversal
argument `"../x"` therefore resolves outside the artifact directory, and
`deleteModel` and the size lookup called with it operate on — and
delete — a file outside that directory. -/
theorem getModelPath_traversal :
    (∀ s : String, getModelPath mgr s = normSegs (mgr.modelsDir ++ splitSegs s)) ∧
    getModelPath mgr "../x" = ["srv", "app", "x"] ∧
    isUnder mgr.modelsDir (getModelPath mgr "../x") = false ∧
    getModelSize mgr fsOutside "../x" = "0.0MB" ∧
    deleteModel mgr fsOutside "../x" = (true, removeFile fsOutside ["srv", "app", "x"]) ∧
    existsSync (removeFile fsOutside ["srv", "app", "x"]) ["srv", "app", "x"] = false := by
  refine ⟨fun s => rfl, by decide, by decide, by decide, by decide, by decide⟩
